import Mathlib

/-!
# Verification of the hw1-grader core (grader/utils.py)

Shallow embedding of the grading utilities:

* `df_close` — tolerant element-wise DataFrame comparison (partial credit
  blending NaN-mask agreement and value agreement);
* `GradeResult` with its mutators `award` / `deduct` / `fail`;
* the AST-based loop detector `_LoopFinder` / `check_no_loops`.

Modelling conventions: a finite float value is a rational number; NaN is
`Option.none`; a DataFrame is its shape together with the row-major list of
cells.  Cell contents that `astype(float)` cannot coerce are the `RawCell.bad`
constructor, and the raised/​caught exception is an `Except` error.  The Python
AST is a mutual inductive covering the statement forms relevant to the loop
detector, with expressions (including comprehensions and generator
expressions) as a separate type that can never contain statements, exactly as
in Python's grammar.
-/

/-- A raw DataFrame cell, before `astype(float)`:
a finite numeric value, a missing value (NaN), or content that cannot be
coerced to float (so `astype(float)` raises). -/
inductive RawCell where
  | num (q : ℚ)
  | nan
  | bad
deriving DecidableEq

/-- The float value of a coercible cell (`bad` is mapped to `none`; it is
only used under a hypothesis excluding `bad`). -/
def RawCell.cellVal : RawCell → Option ℚ
  | .num q => some q
  | .nan => none
  | .bad => none

/-- The NaN-mask entry of a cell of a float table. -/
def RawCell.cellIsNaN (c : RawCell) : Bool := c.cellVal.isNone

/-- A pandas DataFrame: its shape and its cells in row-major order. -/
structure DF where
  nrows : ℕ
  ncols : ℕ
  cells : List RawCell
deriving DecidableEq

/-- `df.shape` as in pandas. -/
def DF.shape (d : DF) : ℕ × ℕ := (d.nrows, d.ncols)

/-- `values.astype(float)` on a single cell: raises (error) on uncoercible
content. -/
def coerceCell : RawCell → Except Unit (Option ℚ)
  | .num q => .ok (some q)
  | .nan => .ok none
  | .bad => .error ()

/-- `values.astype(float)` on all cells: raises (error) if any cell is
uncoercible. -/
def coerceCells : List RawCell → Except Unit (List (Option ℚ))
  | [] => .ok []
  | c :: cs =>
    match coerceCell c, coerceCells cs with
    | .ok v, .ok vs => .ok (v :: vs)
    | _, _ => .error ()

/-- `np.isclose(a, b, rtol, atol)` on finite floats:
`|a - b| <= atol + rtol * |b|`.  In `df_close` it is called with `a` the
reference value and `b` the student value. -/
def np_isclose (a b rtol atol : ℚ) : Bool :=
  decide (|a - b| ≤ atol + rtol * |b|)

/-- Count of positions at which the two NaN masks agree
(`(ref_nan == stu_nan)` summed; the arrays have equal shape). -/
def maskAgreeCount : List Bool → List Bool → ℕ
  | a :: as, b :: bs => (if a = b then 1 else 0) + maskAgreeCount as bs
  | _, _ => 0

/-- The pairs `(ref_vals[mask], stu_vals[mask])` of values at positions where
neither table is NaN (`mask = ~ref_nan & ~stu_nan`). -/
def overlapPairs : List (Option ℚ) → List (Option ℚ) → List (ℚ × ℚ)
  | some r :: rs, some s :: ss => (r, s) :: overlapPairs rs ss
  | _ :: rs, _ :: ss => overlapPairs rs ss
  | _, _ => []

/-- The body of `df_close` after the shape check and float coercion, operating
on the two cell-value lists (student first, as in the Python signature). -/
def df_close_vals (stu_vals ref_vals : List (Option ℚ)) (rtol atol : ℚ) :
    Bool × ℚ :=
  let ref_nan := ref_vals.map Option.isNone
  let stu_nan := stu_vals.map Option.isNone
  let nan_match : Bool := ref_nan == stu_nan
  let nan_frac : ℚ :=
    if nan_match then 1
    else (maskAgreeCount ref_nan stu_nan : ℚ) / (ref_nan.length : ℚ)
  let ov := overlapPairs ref_vals stu_vals
  if ov.length = 0 then (nan_match, nan_frac)
  else
    let val_frac : ℚ :=
      ((ov.countP fun p => np_isclose p.1 p.2 rtol atol : ℕ) : ℚ) /
        (ov.length : ℚ)
    (nan_match && decide (val_frac = 1),
      1/2 * nan_frac + 1/2 * val_frac)

/-- The number of overlap cells of a float-table comparison that fall out of
tolerance (the complement, within the overlap, of the cells `np.isclose`
accepts). -/
def outOfTolCount (student_df ref_df : DF) (rtol atol : ℚ) : ℕ :=
  (overlapPairs (ref_df.cells.map RawCell.cellVal)
      (student_df.cells.map RawCell.cellVal)).countP
    fun p => !(np_isclose p.1 p.2 rtol atol)

/-- The number of overlap cells (`mask.sum()`) of a float-table
comparison. -/
def overlapCount (student_df ref_df : DF) : ℕ :=
  (overlapPairs (ref_df.cells.map RawCell.cellVal)
    (student_df.cells.map RawCell.cellVal)).length

/-- The `nan_frac` intermediate value of `df_close` on a float-table pair:
the fraction of cells whose NaN masks agree, hard-wired to `1.0` when the
masks match exactly. -/
def nanFracOf (student_df ref_df : DF) : ℚ :=
  if (ref_df.cells.map RawCell.cellVal).map Option.isNone
      == (student_df.cells.map RawCell.cellVal).map Option.isNone then 1
  else
    (maskAgreeCount ((ref_df.cells.map RawCell.cellVal).map Option.isNone)
        ((student_df.cells.map RawCell.cellVal).map Option.isNone) : ℚ) /
      ((((ref_df.cells.map RawCell.cellVal).map Option.isNone)).length : ℚ)

/-- The `val_frac` intermediate value of `df_close` on a float-table pair:
the fraction of overlap cells that `np.isclose` accepts. -/
def valFracOf (student_df ref_df : DF) (rtol atol : ℚ) : ℚ :=
  (((overlapPairs (ref_df.cells.map RawCell.cellVal)
        (student_df.cells.map RawCell.cellVal)).countP
      fun p => np_isclose p.1 p.2 rtol atol : ℕ) : ℚ) /
    ((overlapPairs (ref_df.cells.map RawCell.cellVal)
        (student_df.cells.map RawCell.cellVal)).length : ℚ)

/-- `RTOL_STRICT` from grader/config.py (`1e-4`). -/
def RTOL_STRICT : ℚ := 1/10000

/-- `ATOL_STRICT` from grader/config.py (`1e-6`). -/
def ATOL_STRICT : ℚ := 1/1000000

/-- `df_close(student_df, ref_df, rtol, atol)`: shape check, float coercion
(an exception is caught and yields `(False, 0.0)`), then the element-wise
comparison. -/
def df_close (student_df ref_df : DF) (rtol atol : ℚ) : Bool × ℚ :=
  if student_df.shape ≠ ref_df.shape then (false, 0)
  else
    match coerceCells ref_df.cells, coerceCells student_df.cells with
    | .ok ref_vals, .ok stu_vals => df_close_vals stu_vals ref_vals rtol atol
    | _, _ => (false, 0)

/-! ## Grade result container -/

/-- `GradeResult`: accumulates points and diagnostic messages for one test. -/
structure GradeResult where
  name : String
  max_points : ℚ
  points : ℚ
  messages : List String
deriving DecidableEq

/-- `GradeResult.__init__(name, max_points)`: points start at `0.0` with no
messages. -/
def GradeResult.init (name : String) (max_points : ℚ) : GradeResult :=
  ⟨name, max_points, 0, []⟩

/-- Model of Python's `f"{pts:.1f}"` on a rational: round to one decimal
place and print (decimal formatting of the underlying float is approximated
by rational rounding; no claim depends on the digits). -/
def fmtFixed1 (q : ℚ) : String :=
  let n : ℤ := round (q * 10)
  let sign := if n < 0 then "-" else ""
  sign ++ toString (n.natAbs / 10) ++ "." ++ toString (n.natAbs % 10)

/-- `GradeResult.award(pts, msg)`: add `pts` clamped at `max_points`; append
an awarded message when `msg` is nonempty. -/
def GradeResult.award (gr : GradeResult) (pts : ℚ) (msg : String) :
    GradeResult :=
  { gr with
    points := min (gr.points + pts) gr.max_points
    messages :=
      if msg ≠ "" then gr.messages ++ ["  [+" ++ fmtFixed1 pts ++ "] " ++ msg]
      else gr.messages }

/-- `GradeResult.deduct(msg)`: append a not-awarded message, points
unchanged. -/
def GradeResult.deduct (gr : GradeResult) (msg : String) : GradeResult :=
  { gr with messages := gr.messages ++ ["  [  ] " ++ msg] }

/-- `GradeResult.fail(msg)`: reset points to `0.0` and replace the message
list with the single failure message. -/
def GradeResult.fail (gr : GradeResult) (msg : String) : GradeResult :=
  { gr with points := 0, messages := ["  [FAIL] " ++ msg] }

/-- One mutator call on a `GradeResult`. -/
inductive GradeOp where
  | award (pts : ℚ) (msg : String)
  | deduct (msg : String)
  | fail (msg : String)
deriving DecidableEq

/-- Apply one mutator call. -/
def applyOp (gr : GradeResult) : GradeOp → GradeResult
  | .award p m => gr.award p m
  | .deduct m => gr.deduct m
  | .fail m => gr.fail m

/-- Apply a sequence of mutator calls in order. -/
def applyOps (gr : GradeResult) (ops : List GradeOp) : GradeResult :=
  ops.foldl applyOp gr

/-- The `award` argument is nonnegative (trivial for the other calls). -/
def AwardNonneg : GradeOp → Prop
  | .award p _ => 0 ≤ p
  | .deduct _ => True
  | .fail _ => True

instance (op : GradeOp) : Decidable (AwardNonneg op) :=
  match op with
  | .award p _ => inferInstanceAs (Decidable (0 ≤ p))
  | .deduct _ => inferInstanceAs (Decidable True)
  | .fail _ => inferInstanceAs (Decidable True)

/-! ## Python AST fragment and the loop detector -/

/-- Python expressions, as far as the loop detector is concerned.  The
comprehension and generator-expression forms carry their element and
iterable sub-expressions; none of these nodes is a `for`/`while` statement
node, and (as in Python's grammar) no statement can occur inside an
expression. -/
inductive PyExpr where
  | name (id : String)
  | num (n : ℤ)
  | binop (a b : PyExpr)
  | call (f a : PyExpr)
  | listComp (elt iter : PyExpr)
  | setComp (elt iter : PyExpr)
  | dictComp (key value iter : PyExpr)
  | generatorExp (elt iter : PyExpr)
  | lambda (body : PyExpr)

mutual

/-- Python statements, as far as the loop detector is concerned: `ast.For`,
`ast.While`, `ast.AsyncFor` (a distinct node class, so `visit_For` does not
fire on it), and the other statement forms traversed by `generic_visit`. -/
inductive PyStmt where
  | forStmt (lineno : ℕ) (body orelse : PyStmtList)
  | whileStmt (lineno : ℕ) (body orelse : PyStmtList)
  | asyncForStmt (lineno : ℕ) (body orelse : PyStmtList)
  | ifStmt (lineno : ℕ) (body orelse : PyStmtList)
  | functionDef (lineno : ℕ) (fname : String) (body : PyStmtList)
  | withStmt (lineno : ℕ) (body : PyStmtList)
  | exprStmt (lineno : ℕ) (e : PyExpr)
  | assign (lineno : ℕ) (value : PyExpr)
  | returnStmt (lineno : ℕ) (value : Option PyExpr)
  | passStmt (lineno : ℕ)

/-- A block of Python statements (an `ast` statement list). -/
inductive PyStmtList where
  | nil
  | cons (s : PyStmt) (rest : PyStmtList)

end

mutual

/-- `_LoopFinder.visit` on one statement: `visit_For` / `visit_While` record
`(kind, lineno)` and then `generic_visit` recurses into the children; every
other node only recurses. -/
def findLoopsStmt : PyStmt → List (String × ℕ)
  | .forStmt l body orelse =>
    ("for", l) :: (findLoopsBlock body ++ findLoopsBlock orelse)
  | .whileStmt l body orelse =>
    ("while", l) :: (findLoopsBlock body ++ findLoopsBlock orelse)
  | .asyncForStmt _ body orelse => findLoopsBlock body ++ findLoopsBlock orelse
  | .ifStmt _ body orelse => findLoopsBlock body ++ findLoopsBlock orelse
  | .functionDef _ _ body => findLoopsBlock body
  | .withStmt _ body => findLoopsBlock body
  | .exprStmt _ _ => []
  | .assign _ _ => []
  | .returnStmt _ _ => []
  | .passStmt _ => []

/-- `_LoopFinder.visit` over a statement block, left to right. -/
def findLoopsBlock : PyStmtList → List (String × ℕ)
  | .nil => []
  | .cons s rest => findLoopsStmt s ++ findLoopsBlock rest

end

mutual

/-- Every statement node of the tree rooted at a statement, in the preorder
in which `generic_visit` discovers them (the node itself first, then its
body, then its `orelse`). -/
def allStmts : PyStmt → List PyStmt
  | .forStmt l body orelse =>
    PyStmt.forStmt l body orelse :: (allStmtsBlock body ++ allStmtsBlock orelse)
  | .whileStmt l body orelse =>
    PyStmt.whileStmt l body orelse ::
      (allStmtsBlock body ++ allStmtsBlock orelse)
  | .asyncForStmt l body orelse =>
    PyStmt.asyncForStmt l body orelse ::
      (allStmtsBlock body ++ allStmtsBlock orelse)
  | .ifStmt l body orelse =>
    PyStmt.ifStmt l body orelse :: (allStmtsBlock body ++ allStmtsBlock orelse)
  | .functionDef l n body => PyStmt.functionDef l n body :: allStmtsBlock body
  | .withStmt l body => PyStmt.withStmt l body :: allStmtsBlock body
  | .exprStmt l e => [PyStmt.exprStmt l e]
  | .assign l v => [PyStmt.assign l v]
  | .returnStmt l v => [PyStmt.returnStmt l v]
  | .passStmt l => [PyStmt.passStmt l]

/-- Every statement node of a block's trees, in preorder. -/
def allStmtsBlock : PyStmtList → List PyStmt
  | .nil => []
  | .cons s rest => allStmts s ++ allStmtsBlock rest

end

/-- The loop occurrence a single statement node contributes: `("for", lineno)`
for a plain `for` statement, `("while", lineno)` for a `while` statement,
nothing otherwise. -/
def loopOcc : PyStmt → Option (String × ℕ)
  | .forStmt l _ _ => some ("for", l)
  | .whileStmt l _ _ => some ("while", l)
  | _ => none

/-- The outcome of `inspect.getsource` + `textwrap.dedent` + `ast.parse` on
the graded function: the parsed module body, or the caught
`OSError`/`TypeError` (source unavailable), or the caught `SyntaxError`. -/
inductive FnSource where
  | ok (body : PyStmtList)
  | unavailable
  | unparsable

/-- `PENALIZE_LOOPS` from grader/config.py. -/
def PENALIZE_LOOPS : Bool := true

/-- `check_no_loops(gr, fn)`: returns the (possibly failed) `GradeResult`
together with the boolean the Python function returns.  Unreadable or
unparsable source skips the check; otherwise any found loop zeroes the
result with a diagnostic listing every `(kind, line)` pair. -/
def check_no_loops (gr : GradeResult) (fn : FnSource) : GradeResult × Bool :=
  if !PENALIZE_LOOPS then (gr, true)
  else
    match fn with
    | .unavailable => (gr, true)
    | .unparsable => (gr, true)
    | .ok body =>
      let loops := findLoopsBlock body
      if loops ≠ [] then
        let loop_desc := String.intercalate ", "
          (loops.map fun kl => kl.1 ++ " loop on line " ++ toString kl.2)
        (gr.fail ("Explicit loops are not allowed (vectorize with " ++
          "pandas/numpy). Found: " ++ loop_desc), false)
      else (gr, true)

/-! ## Helper lemmas -/

theorem coerceCells_ok (l : List RawCell) (h : ∀ c ∈ l, c ≠ RawCell.bad) :
    coerceCells l = .ok (l.map RawCell.cellVal) := by
  induction l with
  | nil => rfl
  | cons c cs ih =>
    have hc : c ≠ RawCell.bad := h c (by simp)
    have hcs := ih fun x hx => h x (by simp [hx])
    cases c with
    | num q => simp [coerceCells, coerceCell, hcs, RawCell.cellVal]
    | nan => simp [coerceCells, coerceCell, hcs, RawCell.cellVal]
    | bad => exact absurd rfl hc

theorem df_close_vals_fst_imp (stu ref : List (Option ℚ)) (rtol atol : ℚ)
    (h : (df_close_vals stu ref rtol atol).1 = true) :
    (df_close_vals stu ref rtol atol).2 = 1 := by
  simp only [df_close_vals] at h ⊢
  by_cases hov : (overlapPairs ref stu).length = 0
  · rw [if_pos hov] at h ⊢
    simp only at h
    simp [h]
  · rw [if_neg hov] at h ⊢
    simp only [Bool.and_eq_true, decide_eq_true_eq] at h
    obtain ⟨hm, hv⟩ := h
    simp only [hm, hv, if_pos]
    norm_num

theorem df_close_fst_imp (stu ref : DF) (rtol atol : ℚ)
    (h : (df_close stu ref rtol atol).1 = true) :
    (df_close stu ref rtol atol).2 = 1 := by
  by_cases hs : stu.shape ≠ ref.shape
  · simp only [df_close, if_pos hs] at h
    cases h
  · cases hr : coerceCells ref.cells with
    | error e =>
      cases hc : coerceCells stu.cells with
      | error e2 =>
        simp only [df_close, if_neg hs, hr, hc] at h
        exact absurd h Bool.false_ne_true
      | ok sv =>
        simp only [df_close, if_neg hs, hr, hc] at h
        exact absurd h Bool.false_ne_true
    | ok rv =>
      cases hc : coerceCells stu.cells with
      | error e =>
        simp only [df_close, if_neg hs, hr, hc] at h
        exact absurd h Bool.false_ne_true
      | ok sv =>
        simp only [df_close, if_neg hs, hr, hc] at h ⊢
        exact df_close_vals_fst_imp sv rv rtol atol h

/-! ## Claim theorems -/

/-- C1: for same-shaped float tables and nonnegative tolerances, if
`df_close` returns `all_close = true` then it returns
`fraction_close = 1.0`, on the no-overlap early-return path (where
`nan_match` forces `nan_frac = 1.0`) as well as on the blended path. -/
theorem df_close_all_close_implies_fraction_one (stu ref : DF)
    (rtol atol : ℚ) (hshape : stu.shape = ref.shape)
    (hstu : ∀ c ∈ stu.cells, c ≠ RawCell.bad)
    (href : ∀ c ∈ ref.cells, c ≠ RawCell.bad)
    (hrtol : 0 ≤ rtol) (hatol : 0 ≤ atol)
    (hall : (df_close stu ref rtol atol).1 = true) :
    (df_close stu ref rtol atol).2 = 1 :=
  df_close_fst_imp stu ref rtol atol hall

/-- Witness for C1 at a concrete input (a no-overlap pair of identical
all-NaN tables). -/
theorem df_close_all_close_implies_fraction_one_witness :
    (df_close ⟨1, 1, [RawCell.nan]⟩ ⟨1, 1, [RawCell.nan]⟩ 0 0).1 = true ∧
    (df_close ⟨1, 1, [RawCell.nan]⟩ ⟨1, 1, [RawCell.nan]⟩ 0 0).2 = 1 :=
  ⟨by decide,
    df_close_all_close_implies_fraction_one ⟨1, 1, [RawCell.nan]⟩
      ⟨1, 1, [RawCell.nan]⟩ 0 0 rfl (by decide) (by decide) (by decide)
      (by decide) (by decide)⟩

/-- C4: the comparator never raises: shape mismatch returns `(false, 0.0)`,
and a caught exception (a cell `astype(float)` cannot coerce) also returns
`(false, 0.0)`.  In the embedding `df_close` is a total function, so no
exception can escape it. -/
theorem df_close_never_raises (stu ref : DF) (rtol atol : ℚ)
    (h : stu.shape ≠ ref.shape ∨ coerceCells stu.cells = .error () ∨
      coerceCells ref.cells = .error ()) :
    df_close stu ref rtol atol = (false, 0) := by
  by_cases hs : stu.shape ≠ ref.shape
  · simp only [df_close, if_pos hs]
  · simp only [df_close, if_neg hs]
    rcases h with h | h | h
    · exact absurd h hs
    · rw [h]
      cases coerceCells ref.cells <;> rfl
    · rw [h]

/-- Witness for C4 at a concrete shape-mismatched pair. -/
theorem df_close_never_raises_witness :
    df_close ⟨1, 1, [RawCell.num 1]⟩ ⟨2, 1, [RawCell.num 1, RawCell.num 2]⟩
      0 0 = (false, 0) :=
  df_close_never_raises ⟨1, 1, [RawCell.num 1]⟩
    ⟨2, 1, [RawCell.num 1, RawCell.num 2]⟩ 0 0 (Or.inl (by decide))

/-- C2: whenever overlap cells exist (for same-shaped float tables),
`df_close` returns `fraction_close = 0.5 * nan_frac + 0.5 * val_frac`; and
concretely, the 4×2 table `[[1,2],[NaN,3],[4,NaN],[5,6]]` compared with an
identical copy (at the strict default tolerances) gives `(true, 1.0)`,
while flipping its first cell to the far-off value 1000 gives
`all_close = false` and `fraction_close = 0.5*1.0 + 0.5*(5/6)`. -/
theorem df_close_blend_when_overlap (stu ref : DF) (rtol atol : ℚ)
    (hs : stu.shape = ref.shape)
    (hfs : ∀ c ∈ stu.cells, c ≠ RawCell.bad)
    (hfr : ∀ c ∈ ref.cells, c ≠ RawCell.bad)
    (hov : overlapCount stu ref ≠ 0) :
    (df_close stu ref rtol atol).2
      = 1/2 * nanFracOf stu ref + 1/2 * valFracOf stu ref rtol atol ∧
    df_close
        ⟨4, 2, [.num 1, .num 2, .nan, .num 3, .num 4, .nan, .num 5, .num 6]⟩
        ⟨4, 2, [.num 1, .num 2, .nan, .num 3, .num 4, .nan, .num 5, .num 6]⟩
        RTOL_STRICT ATOL_STRICT = (true, 1) ∧
    df_close
        ⟨4, 2,
          [.num 1000, .num 2, .nan, .num 3, .num 4, .nan, .num 5, .num 6]⟩
        ⟨4, 2, [.num 1, .num 2, .nan, .num 3, .num 4, .nan, .num 5, .num 6]⟩
        RTOL_STRICT ATOL_STRICT = (false, 1/2 * 1 + 1/2 * (5/6)) := by
  refine ⟨?_, ?_, ?_⟩
  · have hcs := coerceCells_ok stu.cells hfs
    have hcr := coerceCells_ok ref.cells hfr
    have hn : ¬stu.shape ≠ ref.shape := fun h => h hs
    have hov2 : ¬((overlapPairs (ref.cells.map RawCell.cellVal)
        (stu.cells.map RawCell.cellVal)).length = 0) := hov
    simp only [df_close, if_neg hn, hcs, hcr, df_close_vals]
    rw [if_neg hov2]
    simp only [nanFracOf, valFracOf]
  · norm_num [df_close, df_close_vals, DF.shape, coerceCells, coerceCell,
      overlapPairs, np_isclose, maskAgreeCount, RTOL_STRICT, ATOL_STRICT]
  · norm_num [df_close, df_close_vals, DF.shape, coerceCells, coerceCell,
      overlapPairs, np_isclose, maskAgreeCount, RTOL_STRICT, ATOL_STRICT]

/-- Witness for C2: the blend identity instantiated at the claim's flipped
4×2 table, which has six overlap cells. -/
theorem df_close_blend_when_overlap_witness :
    overlapCount
        ⟨4, 2,
          [.num 1000, .num 2, .nan, .num 3, .num 4, .nan, .num 5, .num 6]⟩
        ⟨4, 2, [.num 1, .num 2, .nan, .num 3, .num 4, .nan, .num 5, .num 6]⟩
      ≠ 0 ∧
    (df_close
        ⟨4, 2,
          [.num 1000, .num 2, .nan, .num 3, .num 4, .nan, .num 5, .num 6]⟩
        ⟨4, 2, [.num 1, .num 2, .nan, .num 3, .num 4, .nan, .num 5, .num 6]⟩
        RTOL_STRICT ATOL_STRICT).2
      = 1/2 * nanFracOf
          ⟨4, 2,
            [.num 1000, .num 2, .nan, .num 3, .num 4, .nan, .num 5, .num 6]⟩
          ⟨4, 2,
            [.num 1, .num 2, .nan, .num 3, .num 4, .nan, .num 5, .num 6]⟩
        + 1/2 * valFracOf
          ⟨4, 2,
            [.num 1000, .num 2, .nan, .num 3, .num 4, .nan, .num 5, .num 6]⟩
          ⟨4, 2,
            [.num 1, .num 2, .nan, .num 3, .num 4, .nan, .num 5, .num 6]⟩
          RTOL_STRICT ATOL_STRICT :=
  ⟨by decide,
    (df_close_blend_when_overlap
      ⟨4, 2, [.num 1000, .num 2, .nan, .num 3, .num 4, .nan, .num 5, .num 6]⟩
      ⟨4, 2, [.num 1, .num 2, .nan, .num 3, .num 4, .nan, .num 5, .num 6]⟩
      RTOL_STRICT ATOL_STRICT
      (by decide) (by decide) (by decide) (by decide)).1⟩

mutual

theorem findLoopsStmt_eq (s : PyStmt) :
    findLoopsStmt s = (allStmts s).filterMap loopOcc := by
  cases s with
  | forStmt l b o =>
    simp [findLoopsStmt, allStmts, loopOcc, List.filterMap_append,
      findLoopsBlock_eq b, findLoopsBlock_eq o]
  | whileStmt l b o =>
    simp [findLoopsStmt, allStmts, loopOcc, List.filterMap_append,
      findLoopsBlock_eq b, findLoopsBlock_eq o]
  | asyncForStmt l b o =>
    simp [findLoopsStmt, allStmts, loopOcc, List.filterMap_append,
      findLoopsBlock_eq b, findLoopsBlock_eq o]
  | ifStmt l b o =>
    simp [findLoopsStmt, allStmts, loopOcc, List.filterMap_append,
      findLoopsBlock_eq b, findLoopsBlock_eq o]
  | functionDef l n b =>
    simp [findLoopsStmt, allStmts, loopOcc, findLoopsBlock_eq b]
  | withStmt l b =>
    simp [findLoopsStmt, allStmts, loopOcc, findLoopsBlock_eq b]
  | exprStmt l e => simp [findLoopsStmt, allStmts, loopOcc]
  | assign l v => simp [findLoopsStmt, allStmts, loopOcc]
  | returnStmt l v => simp [findLoopsStmt, allStmts, loopOcc]
  | passStmt l => simp [findLoopsStmt, allStmts, loopOcc]

theorem findLoopsBlock_eq (l : PyStmtList) :
    findLoopsBlock l = (allStmtsBlock l).filterMap loopOcc := by
  cases l with
  | nil => rfl
  | cons s rest =>
    simp [findLoopsBlock, allStmtsBlock, List.filterMap_append,
      findLoopsStmt_eq s, findLoopsBlock_eq rest]

end

/-- C3: the loop detector records exactly one `(kind, line)` occurrence per
`for` statement and per `while` statement anywhere in the syntax tree,
nested ones included, in appearance (preorder) order: its output is the
preorder enumeration of all statement nodes filtered to the loop nodes.
In particular a tree with no such constructs yields `[]`, and a tree with
`k` of them yields exactly `k` occurrences with their line numbers. -/
theorem find_loops_enumerates (body : PyStmtList) :
    findLoopsBlock body = (allStmtsBlock body).filterMap loopOcc :=
  findLoopsBlock_eq body

/-- C10: iteration via list/set/dict comprehensions, generator expressions,
or `async for` is not matched by the detector, which only records plain
`for`/`while` statement nodes: on any function body with no such node,
`check_no_loops` returns `True` and leaves the `GradeResult` unchanged. -/
theorem check_no_loops_ignores_comprehensions (gr : GradeResult)
    (body : PyStmtList) (h : ∀ s ∈ allStmtsBlock body, loopOcc s = none) :
    check_no_loops gr (FnSource.ok body) = (gr, true) := by
  have hempty : findLoopsBlock body = [] := by
    rw [findLoopsBlock_eq]
    exact List.filterMap_eq_nil_iff.mpr h
  simp [check_no_loops, PENALIZE_LOOPS, hempty]

/-- Witness for C10: a function whose body iterates only through a list
comprehension, an `async for` statement, and a generator expression. -/
theorem check_no_loops_ignores_comprehensions_witness :
    check_no_loops (GradeResult.init "t" 10)
      (FnSource.ok (.cons (.functionDef 1 "f"
        (.cons (.assign 2 (.listComp (.name "i") (.name "x")))
        (.cons (.asyncForStmt 3
          (.cons (.exprStmt 4 (.call (.name "g") (.name "i"))) .nil) .nil)
        (.cons (.returnStmt 5
          (some (.generatorExp (.name "i") (.name "x")))) .nil)))) .nil))
      = (GradeResult.init "t" 10, true) :=
  check_no_loops_ignores_comprehensions (GradeResult.init "t" 10)
    (.cons (.functionDef 1 "f"
      (.cons (.assign 2 (.listComp (.name "i") (.name "x")))
      (.cons (.asyncForStmt 3
        (.cons (.exprStmt 4 (.call (.name "g") (.name "i"))) .nil) .nil)
      (.cons (.returnStmt 5
        (some (.generatorExp (.name "i") (.name "x")))) .nil)))) .nil)
    (by decide)

/-- C6: when the function's source cannot be retrieved or parsed,
`check_no_loops` fails open: it returns `True` and leaves the `GradeResult`
(points and messages) unchanged; the caught exceptions do not propagate. -/
theorem check_no_loops_fails_open (gr : GradeResult) :
    check_no_loops gr FnSource.unavailable = (gr, true) ∧
    check_no_loops gr FnSource.unparsable = (gr, true) :=
  ⟨rfl, rfl⟩

theorem applyOp_max_eq (gr : GradeResult) (op : GradeOp) :
    (applyOp gr op).max_points = gr.max_points := by
  cases op <;> rfl

theorem applyOps_max_eq (ops : List GradeOp) (gr : GradeResult) :
    (applyOps gr ops).max_points = gr.max_points := by
  induction ops generalizing gr with
  | nil => rfl
  | cons op rest ih =>
    rw [applyOps, List.foldl_cons]
    exact (ih (applyOp gr op)).trans (applyOp_max_eq gr op)

theorem applyOps_bounds (ops : List GradeOp) (gr : GradeResult)
    (hmp : 0 ≤ gr.max_points) (h0 : 0 ≤ gr.points)
    (h1 : gr.points ≤ gr.max_points)
    (hn : ∀ op ∈ ops, AwardNonneg op) :
    0 ≤ (applyOps gr ops).points ∧
      (applyOps gr ops).points ≤ gr.max_points := by
  induction ops generalizing gr with
  | nil => exact ⟨h0, h1⟩
  | cons op rest ih =>
    have hop := hn op (List.mem_cons_self op rest)
    have hrest : ∀ o ∈ rest, AwardNonneg o :=
      fun o ho => hn o (List.mem_cons_of_mem op ho)
    have hmax : (applyOp gr op).max_points = gr.max_points :=
      applyOp_max_eq gr op
    have key : 0 ≤ (applyOp gr op).points ∧
        (applyOp gr op).points ≤ (applyOp gr op).max_points := by
      cases op with
      | award p m =>
        have hp : 0 ≤ p := hop
        simp only [applyOp, GradeResult.award]
        exact ⟨le_min (by linarith) hmp, min_le_right _ _⟩
      | deduct m => exact ⟨h0, h1⟩
      | fail m => exact ⟨le_refl 0, hmp⟩
    have ihh := ih (applyOp gr op) (hmax ▸ hmp) key.1 key.2 hrest
    rw [applyOps, List.foldl_cons]
    exact ⟨ihh.1, by rw [← hmax]; exact ihh.2⟩

/-- C5 counterexample: the claim fails as stated because `award` clamps only
from above: starting from `max_points = 10 ≥ 0`, the single call
`award(-1.0)` drives `points` to `-1`, below the claimed `[0, max_points]`
range. -/
theorem award_negative_escapes_range :
    (0:ℚ) ≤ (GradeResult.init "t" 10).max_points ∧
    (applyOps (GradeResult.init "t" 10) [.award (-1) ""]).points < 0 := by
  constructor
  · norm_num [GradeResult.init]
  · norm_num [applyOps, applyOp, GradeResult.award, GradeResult.init, min_def]

/-- C5 (amended): for a `GradeResult` with `max_points ≥ 0` and any sequence
of `award`/`deduct`/`fail` calls in which every `award` amount is
nonnegative, `points` stays within `[0, max_points]` after every call
(`award` clamps the running sum at `max_points` from above, and with
nonnegative amounts it cannot fall below zero). -/
theorem points_stay_within_range (name : String) (mp : ℚ)
    (ops : List GradeOp) (hmp : 0 ≤ mp)
    (hn : ∀ op ∈ ops, AwardNonneg op) :
    0 ≤ (applyOps (GradeResult.init name mp) ops).points ∧
    (applyOps (GradeResult.init name mp) ops).points ≤ mp :=
  applyOps_bounds ops (GradeResult.init name mp) hmp (le_refl 0) hmp hn

/-- Witness for C5 (amended) on a concrete call sequence. -/
theorem points_stay_within_range_witness :
    (0:ℚ) ≤ 10 ∧
    0 ≤ (applyOps (GradeResult.init "t" 10)
      [.award 3 "a", .deduct "d", .fail "f", .award 20 "b"]).points ∧
    (applyOps (GradeResult.init "t" 10)
      [.award 3 "a", .deduct "d", .fail "f", .award 20 "b"]).points ≤ 10 :=
  ⟨by decide, points_stay_within_range "t" 10
    [.award 3 "a", .deduct "d", .fail "f", .award 20 "b"]
    (by decide) (by decide)⟩

/-- C9: `fail` is absorbing: after any sequence of `award`/`deduct` calls it
sets `points` to exactly `0.0` and replaces the whole message list with the
single failure message; and (for a positive `max_points`) a subsequent
`award` can raise `points` above zero again. -/
theorem fail_is_absorbing (name : String) (mp : ℚ) (ops : List GradeOp)
    (msg : String) (hmp : 0 < mp) :
    ((applyOps (GradeResult.init name mp) ops).fail msg).points = 0 ∧
    ((applyOps (GradeResult.init name mp) ops).fail msg).messages
      = ["  [FAIL] " ++ msg] ∧
    ∃ pts msg2, 0 <
      (((applyOps (GradeResult.init name mp) ops).fail msg).award
        pts msg2).points := by
  have hm : (applyOps (GradeResult.init name mp) ops).max_points = mp :=
    applyOps_max_eq ops (GradeResult.init name mp)
  refine ⟨rfl, rfl, mp, "", ?_⟩
  show 0 <
    min ((0:ℚ) + mp) (applyOps (GradeResult.init name mp) ops).max_points
  rw [hm, zero_add, min_self]
  exact hmp

/-- Witness for C9 on a concrete call sequence. -/
theorem fail_is_absorbing_witness :
    (0:ℚ) < 10 ∧
    ((applyOps (GradeResult.init "t" 10) [.award 3 "a"]).fail "oops").points
      = 0 ∧
    ((applyOps (GradeResult.init "t" 10)
      [.award 3 "a"]).fail "oops").messages = ["  [FAIL] " ++ "oops"] ∧
    ∃ pts msg2, 0 <
      (((applyOps (GradeResult.init "t" 10) [.award 3 "a"]).fail "oops").award
        pts msg2).points :=
  ⟨by decide, fail_is_absorbing "t" 10 [.award 3 "a"] "oops" (by decide)⟩

theorem overlapPairs_self (v : List (Option ℚ)) :
    ∀ p ∈ overlapPairs v v, p.1 = p.2 := by
  induction v with
  | nil => intro p hp; cases hp
  | cons a as ih =>
    intro p hp
    cases a with
    | some q =>
      simp only [overlapPairs, List.mem_cons] at hp
      rcases hp with hp | hp
      · rw [hp]
      · exact ih p hp
    | none =>
      simp only [overlapPairs] at hp
      exact ih p hp

theorem df_close_vals_self (v : List (Option ℚ)) (rtol atol : ℚ)
    (hr : 0 ≤ rtol) (ha : 0 ≤ atol) :
    df_close_vals v v rtol atol = (true, 1) := by
  simp only [df_close_vals]
  have hb : (v.map Option.isNone == v.map Option.isNone) = true :=
    beq_self_eq_true _
  by_cases hov : (overlapPairs v v).length = 0
  · rw [if_pos hov]
    simp [hb]
  · rw [if_neg hov]
    have hall : ∀ p ∈ overlapPairs v v,
        np_isclose p.1 p.2 rtol atol = true := by
      intro p hp
      have hpp := overlapPairs_self v p hp
      simp only [np_isclose, hpp, sub_self, abs_zero, decide_eq_true_eq]
      positivity
    have hcount :
        (overlapPairs v v).countP (fun p => np_isclose p.1 p.2 rtol atol)
          = (overlapPairs v v).length :=
      List.countP_eq_length.mpr hall
    have hlen : (((overlapPairs v v).length : ℕ) : ℚ) ≠ 0 :=
      Nat.cast_ne_zero.mpr hov
    rw [hcount, div_self hlen]
    simp [hb]
    norm_num

/-- C7: self-comparison is exact: for any float table `A` and nonnegative
tolerances, `df_close(A, A, rtol, atol) = (true, 1.0)`, whatever the NaN
placement and whether or not overlap cells exist. -/
theorem df_close_self_exact (A : DF) (rtol atol : ℚ)
    (hr : 0 ≤ rtol) (ha : 0 ≤ atol)
    (hf : ∀ c ∈ A.cells, c ≠ RawCell.bad) :
    df_close A A rtol atol = (true, 1) := by
  have hc := coerceCells_ok A.cells hf
  have hs : ¬A.shape ≠ A.shape := fun h => h rfl
  simp only [df_close, if_neg hs, hc]
  exact df_close_vals_self (A.cells.map RawCell.cellVal) rtol atol hr ha

/-- Witness for C7 on a concrete table mixing a value and a NaN. -/
theorem df_close_self_exact_witness :
    (0:ℚ) ≤ 0 ∧
    df_close ⟨2, 1, [RawCell.num 3, RawCell.nan]⟩
      ⟨2, 1, [RawCell.num 3, RawCell.nan]⟩ 0 0 = (true, 1) :=
  ⟨by decide,
    df_close_self_exact ⟨2, 1, [RawCell.num 3, RawCell.nan]⟩ 0 0
      (by decide) (by decide) (by decide)⟩

theorem countP_add_countP_not {α : Type} (p : α → Bool) (l : List α) :
    l.countP p + l.countP (fun a => !p a) = l.length := by
  induction l with
  | nil => rfl
  | cons a as ih =>
    by_cases h : p a = true <;>
      simp [List.countP_cons, h, ← ih] <;> omega

theorem overlapPairs_length_congr (r : List (Option ℚ)) :
    ∀ s1 s2 : List (Option ℚ),
      s1.map Option.isNone = s2.map Option.isNone →
      (overlapPairs r s1).length = (overlapPairs r s2).length := by
  induction r with
  | nil => intro s1 s2 _; rfl
  | cons a as ih =>
    intro s1 s2 h
    cases s1 with
    | nil =>
      cases s2 with
      | nil => rfl
      | cons y ys => simp at h
    | cons x xs =>
      cases s2 with
      | nil => simp at h
      | cons y ys =>
        simp only [List.map_cons, List.cons.injEq] at h
        obtain ⟨hxy, hrest⟩ := h
        cases a with
        | some av =>
          cases x with
          | some xv =>
            cases y with
            | some yv => simp [overlapPairs, ih xs ys hrest]
            | none => simp [Option.isNone] at hxy
          | none =>
            cases y with
            | some yv => simp [Option.isNone] at hxy
            | none => simp [overlapPairs, ih xs ys hrest]
        | none =>
          simp only [overlapPairs]
          exact ih xs ys hrest

theorem df_close_vals_mono (v1 v2 r : List (Option ℚ)) (rtol atol : ℚ)
    (hmask : v1.map Option.isNone = v2.map Option.isNone)
    (hbad :
      (overlapPairs r v1).countP (fun p => !(np_isclose p.1 p.2 rtol atol)) ≤
      (overlapPairs r v2).countP (fun p => !(np_isclose p.1 p.2 rtol atol))) :
    (df_close_vals v2 r rtol atol).2 ≤ (df_close_vals v1 r rtol atol).2 := by
  have hlen : (overlapPairs r v1).length = (overlapPairs r v2).length :=
    overlapPairs_length_congr r v1 v2 hmask
  simp only [df_close_vals]
  rw [hmask]
  by_cases h0 : (overlapPairs r v2).length = 0
  · have h0' : (overlapPairs r v1).length = 0 := hlen.trans h0
    rw [if_pos h0, if_pos h0']
  · have h0' : ¬(overlapPairs r v1).length = 0 := fun hh => h0 (hlen ▸ hh)
    rw [if_neg h0, if_neg h0']
    have hc1 := countP_add_countP_not
      (fun p => np_isclose p.1 p.2 rtol atol) (overlapPairs r v1)
    have hc2 := countP_add_countP_not
      (fun p => np_isclose p.1 p.2 rtol atol) (overlapPairs r v2)
    have hcle :
        (overlapPairs r v2).countP (fun p => np_isclose p.1 p.2 rtol atol) ≤
        (overlapPairs r v1).countP (fun p => np_isclose p.1 p.2 rtol atol) := by
      omega
    have hnpos : (0:ℚ) < ((overlapPairs r v2).length : ℚ) := by
      exact_mod_cast Nat.pos_of_ne_zero h0
    have hvf :
        (((overlapPairs r v2).countP
            (fun p => np_isclose p.1 p.2 rtol atol) : ℕ) : ℚ) /
          ((overlapPairs r v2).length : ℚ) ≤
        (((overlapPairs r v1).countP
            (fun p => np_isclose p.1 p.2 rtol atol) : ℕ) : ℚ) /
          ((overlapPairs r v1).length : ℚ) := by
      rw [hlen]
      exact div_le_div_of_nonneg_right (by exact_mod_cast hcle) hnpos.le
    dsimp only
    linarith [hvf]

/-- C8: partial-credit monotonicity: for two same-shaped float student
tables with identical missing-value masks (hence the same `nan_frac`
against the reference), if the second has at least as many out-of-tolerance
overlap cells as the first, its `fraction_close` is not greater. -/
theorem fraction_close_monotone (stu1 stu2 ref : DF) (rtol atol : ℚ)
    (hs1 : stu1.shape = ref.shape) (hs2 : stu2.shape = ref.shape)
    (hf1 : ∀ c ∈ stu1.cells, c ≠ RawCell.bad)
    (hf2 : ∀ c ∈ stu2.cells, c ≠ RawCell.bad)
    (hfr : ∀ c ∈ ref.cells, c ≠ RawCell.bad)
    (hmask :
      stu1.cells.map RawCell.cellIsNaN = stu2.cells.map RawCell.cellIsNaN)
    (hbad :
      outOfTolCount stu1 ref rtol atol ≤ outOfTolCount stu2 ref rtol atol) :
    (df_close stu2 ref rtol atol).2 ≤ (df_close stu1 ref rtol atol).2 := by
  have hc1 := coerceCells_ok stu1.cells hf1
  have hc2 := coerceCells_ok stu2.cells hf2
  have hcr := coerceCells_ok ref.cells hfr
  have hn1 : ¬stu1.shape ≠ ref.shape := fun h => h hs1
  have hn2 : ¬stu2.shape ≠ ref.shape := fun h => h hs2
  simp only [df_close, if_neg hn1, if_neg hn2, hc1, hc2, hcr]
  apply df_close_vals_mono
  · simp only [List.map_map]
    simpa [Function.comp_def, RawCell.cellIsNaN] using hmask
  · simpa [outOfTolCount] using hbad

/-- Witness for C8: flipping one overlap cell far outside tolerance does not
increase the blended fraction. -/
theorem fraction_close_monotone_witness :
    outOfTolCount ⟨1, 2, [.num 1, .num 2]⟩ ⟨1, 2, [.num 1, .num 2]⟩ 0 0 ≤
      outOfTolCount ⟨1, 2, [.num 1, .num 100]⟩ ⟨1, 2, [.num 1, .num 2]⟩
        0 0 ∧
    (df_close ⟨1, 2, [.num 1, .num 100]⟩ ⟨1, 2, [.num 1, .num 2]⟩ 0 0).2 ≤
      (df_close ⟨1, 2, [.num 1, .num 2]⟩ ⟨1, 2, [.num 1, .num 2]⟩ 0 0).2 :=
  ⟨by norm_num [outOfTolCount, overlapPairs, np_isclose, RawCell.cellVal,
      List.countP_cons],
    fraction_close_monotone ⟨1, 2, [.num 1, .num 2]⟩
      ⟨1, 2, [.num 1, .num 100]⟩ ⟨1, 2, [.num 1, .num 2]⟩ 0 0
      (by decide) (by decide) (by decide) (by decide) (by decide) (by decide)
      (by norm_num [outOfTolCount, overlapPairs, np_isclose, RawCell.cellVal,
        List.countP_cons])⟩
